import Mathlib

/-!
Verification development for the `good-filings` MCP server (`src/main.py`).

The Python source is shallowly embedded: pure computations become Lean
functions over `Nat`/`Int`/`List Char`; the global `response_cache` dict and
its counter become an explicit `CacheState`; filesystem, network and
third-party converter effects are modelled by oracle records and explicit
event traces.  Text is modelled as `List Char` (Python `str` slicing and
length are character based, as are Lean character lists).
-/

/-! ### Chunker: `split_pdf_into_chunks` (src/main.py lines 63-90) -/

/-- Name of a chunk artifact file, `f"chunk_{start_page}_{end_page}.pdf"`
(src/main.py line 84). -/
def chunkName (start_page end_page : Nat) : String :=
  "chunk_" ++ toString start_page ++ "_" ++ toString end_page ++ ".pdf"

/-- Embedding of `split_pdf_into_chunks` (src/main.py lines 63-90) as a
function of the document's page count.  The function clamps
`pages_per_chunk` to 40 (`pages_per_chunk = min(pages_per_chunk, 40)`,
line 71) and then iterates
`for start_page in range(0, total_pages, pages_per_chunk)` (line 77)
with `end_page = min(start_page + pages_per_chunk, total_pages)` (line 78),
collecting `(start_page, end_page, chunk_path)` tuples.  The Python
`range(0, T, p)` with step `p ≥ 1` enumerates `ceil(T / p)` values
`0, p, 2p, ...`, embedded via `List.range'`.  (A step of 0 raises
`ValueError` in Python; every caller passes a positive chunk size, and the
theorems assume `1 ≤ pages_per_chunk`.)  The scratch directory
(`tempfile.mkdtemp()`, line 75) and page-copying I/O are modelled as events
in the orchestrator embedding below; only the chunk bookkeeping data is
produced here. -/
def split_pdf_into_chunks (total_pages : Nat) (pages_per_chunk : Nat) :
    List (Nat × Nat × String) :=
  let p := min pages_per_chunk 40
  (List.range' 0 ((total_pages + p - 1) / p) p).map
    (fun s => (s, min (s + p) total_pages, chunkName s (min (s + p) total_pages)))

/-- The `(start_page, end_page)` ranges of a chunk list. -/
def chunkRanges (cs : List (Nat × Nat × String)) : List (Nat × Nat) :=
  cs.map (fun c => (c.1, c.2.1))

/-- `chunksOK M a b l` holds when the ranges in `l` are contiguous, gapless,
non-overlapping, cover exactly `[a, b)` in ascending order, and each range is
nonempty with length at most `M`. -/
def chunksOK (M : Nat) : Nat → Nat → List (Nat × Nat) → Bool
  | a, b, [] => a == b
  | a, b, (s, e) :: t =>
      (s == a) && (decide (a < e)) && (decide (e - s ≤ M)) && chunksOK M e b t

theorem chunksOK_nil_eq (M a b : Nat) : chunksOK M a b [] = (a == b) := rfl

theorem chunksOK_cons_eq (M a b s e : Nat) (t : List (Nat × Nat)) :
    chunksOK M a b ((s, e) :: t) =
      ((s == a) && (decide (a < e)) && (decide (e - s ≤ M)) && chunksOK M e b t) :=
  rfl

theorem chunksOK_range'_map (M : Nat) (hM : 1 ≤ M) :
    ∀ (n a P : Nat), a + (n - 1) * M < P → P ≤ a + n * M →
      chunksOK M a P
        ((List.range' a n M).map (fun s => (s, min (s + M) P))) = true := by
  intro n
  induction n with
  | zero =>
      intro a P h1 h2
      rw [Nat.zero_mul] at h2
      omega
  | succ n ih =>
      intro a P h1 h2
      rw [Nat.succ_sub_one] at h1
      rw [Nat.succ_mul] at h2
      simp only [List.range'_succ, List.map_cons]
      rw [chunksOK_cons_eq, Bool.and_eq_true, Bool.and_eq_true, Bool.and_eq_true]
      refine ⟨⟨⟨beq_self_eq_true a, by simp only [decide_eq_true_eq]; omega⟩,
        by simp only [decide_eq_true_eq]; omega⟩, ?_⟩
      cases n with
      | zero =>
          rw [List.range'_zero, List.map_nil, chunksOK_nil_eq, beq_iff_eq]
          rw [Nat.zero_mul] at h1 h2
          omega
      | succ m =>
          have hmul : (m + 1) * M = m * M + M := Nat.succ_mul m M
          have he : min (a + M) P = a + M := by omega
          rw [he]
          refine ih (a + M) P ?_ ?_
          · rw [Nat.succ_sub_one]
            omega
          · rw [Nat.succ_mul]
            omega

/-- C1: For every page count `P ≥ 1` and caller-supplied chunk maximum `M`
with `1 ≤ M ≤ 40`, `split_pdf_into_chunks` produces exactly `⌈P/M⌉` chunks
(count `(P + M - 1) / M`, certified as the ceiling by the two product
bounds), whose `(start_page, end_page)` ranges are contiguous, gapless,
non-overlapping, cover `[0, P)` in ascending `start_page` order, and each
have length at most `M`; and for any caller-supplied maximum above 40 the
effective maximum is clamped to 40. -/
theorem split_pdf_chunk_partition (P M : Nat) (hP : 1 ≤ P) :
    (1 ≤ M → M ≤ 40 →
      (split_pdf_into_chunks P M).length = (P + M - 1) / M ∧
      P ≤ M * ((P + M - 1) / M) ∧
      M * ((P + M - 1) / M - 1) < P ∧
      chunksOK M 0 P (chunkRanges (split_pdf_into_chunks P M)) = true) ∧
    (40 < M → split_pdf_into_chunks P M = split_pdf_into_chunks P 40) := by
  constructor
  · intro hM1 hM40
    have hmin : min M 40 = M := by omega
    have hq := Nat.div_add_mod (P + M - 1) M
    have hr : (P + M - 1) % M < M := Nat.mod_lt _ (by omega)
    set q := (P + M - 1) / M with hqdef
    set r := (P + M - 1) % M with hrdef
    have hq1 : 1 ≤ q := by
      rcases Nat.eq_zero_or_pos q with h | h
      · rw [h] at hq; omega
      · exact h
    have hub : P ≤ M * q := by
      have := Nat.mul_le_mul_left M hq1
      omega
    have hlb : M * (q - 1) < P := by
      have : M * (q - 1) = M * q - M := by
        rw [Nat.mul_sub_one]
      omega
    refine ⟨?_, hub, hlb, ?_⟩
    · simp only [split_pdf_into_chunks, hmin, List.length_map, List.length_range']
    · simp only [split_pdf_into_chunks, hmin, chunkRanges, List.map_map]
      have hcomp :
          ((fun c : Nat × Nat × String => (c.1, c.2.1)) ∘
            (fun s => (s, min (s + M) P, chunkName s (min (s + M) P)))) =
          (fun s => (s, min (s + M) P)) := by
        funext s; rfl
      rw [hcomp]
      refine chunksOK_range'_map M hM1 q 0 P ?_ ?_
      · have : (q - 1) * M = M * (q - 1) := Nat.mul_comm _ _
        omega
      · have : q * M = M * q := Nat.mul_comm _ _
        omega
  · intro h40
    have : min M 40 = min 40 40 := by omega
    simp only [split_pdf_into_chunks, this]

/-- Witness for C1 at `P = 85`: a clamped call with `M = 50` equals the
`M = 40` call, and the `M = 40` call yields the well-formed 3-chunk
partition `[0,40) [40,80) [80,85)` of count `⌈85/40⌉ = 3`. -/
theorem split_pdf_chunk_partition_witness :
    split_pdf_into_chunks 85 50 = split_pdf_into_chunks 85 40 ∧
    (split_pdf_into_chunks 85 40).length = (85 + 40 - 1) / 40 ∧
    chunksOK 40 0 85 (chunkRanges (split_pdf_into_chunks 85 40)) = true :=
  ⟨(split_pdf_chunk_partition 85 50 (by decide)).2 (by decide),
   ((split_pdf_chunk_partition 85 40 (by decide)).1 (by decide) (by decide)).1,
   ((split_pdf_chunk_partition 85 40 (by decide)).1 (by decide) (by decide)).2.2.2⟩

/-! ### Segment cache (src/main.py lines 23-25, 172-176, 189-234) -/

/-- Fixed slice length of `get_markdown_segment` (`length = 100000`,
src/main.py line 201). -/
def segLen : Nat := 100000

/-- Python clamped slice index: for `s[a:b]` a negative bound counts from the
end (`max(n + i, 0)`, via `Int.toNat`) and a non-negative bound is clamped to
the length. -/
def pyIdx (n : Nat) (i : Int) : Nat :=
  if i < 0 then (Int.ofNat n + i).toNat else min i.toNat n

/-- Python slice `l[a:b]` (step 1) over a character list. -/
def pySlice (l : List Char) (a b : Int) : List Char :=
  (l.take (pyIdx l.length b)).drop (pyIdx l.length a)

/-- The global `response_cache` dict and `cache_counter` (src/main.py lines
23-25).  The dict is modelled as an association list in insertion order
(Python 3.7+ dict order); values are the cached markdown texts. -/
structure CacheState where
  cache : List (String × List Char)
  counter : Nat
deriving DecidableEq

/-- Python dict assignment `d[k] = v`: overwrite the key in place if present
(dict keys are unique), else append at the end (Python 3.7+ insertion
order). -/
def dictInsert : List (String × List Char) → String → List Char →
    List (String × List Char)
  | [], k, v => [(k, v)]
  | p :: t, k, v => if p.1 == k then (k, v) :: t else p :: dictInsert t k v

/-- The cache-store step of `read_as_markdown` (src/main.py lines 172-176):
`cache_id = f"markdown_{cache_counter}"`, `response_cache[cache_id] = text`,
`cache_counter += 1`.  Returns the new state and the cache id. -/
def storeMarkdown (st : CacheState) (result_text : List Char) :
    CacheState × String :=
  let cache_id := "markdown_" ++ toString st.counter
  (⟨dictInsert st.cache cache_id result_text, st.counter + 1⟩, cache_id)

/-- The JSON payloads `get_markdown_segment` can return (src/main.py lines
204-234): the not-found error with `available_caches` (lines 204-208), the
out-of-range error (lines 214-217), and the success payload (lines 224-234).
Constant JSON text is omitted; all data fields are kept. -/
inductive SegmentResult where
  | notFound (cacheId : String) (availableCaches : List String)
  | outOfRange (offset : Int) (totalLength : Nat)
  | success (cacheId : String) (segment : List Char) (offset : Int)
      (length : Nat) (totalLength : Nat) (hasMore : Bool)
      (nextOffset : Option Int)
deriving DecidableEq

/-- Embedding of `get_markdown_segment` (src/main.py lines 190-234).  The
function only reads `response_cache`; the returned second component is the
(unchanged) cache, making the absence of state mutation explicit.  The
offset check is `offset >= total_length` (line 214) and the slice is
`content[offset:offset + length]` (line 220) with Python slice semantics. -/
def get_markdown_segment (cache : List (String × List Char))
    (cache_id : String) (offset : Int) :
    SegmentResult × List (String × List Char) :=
  match cache.lookup cache_id with
  | none => (.notFound cache_id (cache.map Prod.fst), cache)
  | some content =>
      let total_length := content.length
      if (total_length : Int) ≤ offset then
        (.outOfRange offset total_length, cache)
      else
        let segment := pySlice content offset (offset + (segLen : Int))
        let has_more : Bool := decide (offset + (segLen : Int) < (total_length : Int))
        (.success cache_id segment offset segment.length total_length has_more
          (if offset + (segLen : Int) < (total_length : Int) then
            some (offset + (segLen : Int)) else none), cache)

/-- C6: `get_markdown_segment` never aborts the caller: an unknown
`cache_id` yields a not-found result listing every currently known cache id,
and an existing `cache_id` with `offset ≥ total_length` yields an
out-of-range result; in both cases the cache is returned unchanged. -/
theorem get_markdown_segment_total (cache : List (String × List Char))
    (cache_id : String) (offset : Int) :
    (cache.lookup cache_id = none →
      get_markdown_segment cache cache_id offset =
        (.notFound cache_id (cache.map Prod.fst), cache)) ∧
    (∀ content, cache.lookup cache_id = some content →
      (content.length : Int) ≤ offset →
      get_markdown_segment cache cache_id offset =
        (.outOfRange offset content.length, cache)) := by
  constructor
  · intro h
    simp only [get_markdown_segment, h]
  · intro content h hoff
    simp only [get_markdown_segment, h, if_pos hoff]

/-- Witness for C6: on the cache holding only `markdown_0 ↦ "ab"`, fetching
the unknown id `nope` returns the not-found result listing `markdown_0`,
and fetching `markdown_0` at offset 5 returns the out-of-range result. -/
theorem get_markdown_segment_total_witness :
    get_markdown_segment [("markdown_0", ['a', 'b'])] "nope" 0 =
      (.notFound "nope" ["markdown_0"], [("markdown_0", ['a', 'b'])]) ∧
    get_markdown_segment [("markdown_0", ['a', 'b'])] "markdown_0" 5 =
      (.outOfRange 5 2, [("markdown_0", ['a', 'b'])]) :=
  ⟨(get_markdown_segment_total [("markdown_0", ['a', 'b'])] "nope" 0).1
      (by decide),
   (get_markdown_segment_total [("markdown_0", ['a', 'b'])] "markdown_0" 5).2
      ['a', 'b'] (by decide) (by decide)⟩

/-- Whether a `SegmentResult` is the success payload. -/
def SegmentResult.isSuccess : SegmentResult → Bool
  | .success _ _ _ _ _ _ _ => true
  | _ => false

/-- The segment carried by a success payload (empty for error payloads). -/
def SegmentResult.segmentOf : SegmentResult → List Char
  | .success _ seg _ _ _ _ _ => seg
  | _ => []

theorem take_drop_slice {α : Type} (l : List α) (A B : Nat) :
    (l.take B).drop A = (l.drop A).take (B - A) := by
  rcases Nat.le_total A B with h | h
  · rw [List.take_drop]
    have hAB : A + (B - A) = B := by omega
    rw [hAB]
  · have hBA : B - A = 0 := by omega
    rw [hBA, List.take_zero]
    refine List.drop_eq_nil_of_le ?_
    have := List.length_take B l
    omega

theorem take_min_length {α : Type} (l : List α) (m : Nat) :
    l.take (min m l.length) = l.take m := by
  rcases Nat.le_total m l.length with h | h
  · rw [Nat.min_eq_left h]
  · rw [Nat.min_eq_right h, List.take_length, List.take_of_length_le h]

/-- C9: for a cached id with non-empty content of length `L` and any offset
with `-L ≤ offset < 0`, `get_markdown_segment` does not return an
out-of-range result (the guard only rejects `offset ≥ L`): it returns a
success payload whose segment is `content[offset : offset+100000]` under
Python negative-index slicing, i.e. a slice of at most 100000 characters
addressed from the end of the content (starting `|offset|` characters before
the end). -/
theorem get_markdown_segment_negative_offset
    (cache : List (String × List Char)) (cache_id : String)
    (content : List Char) (offset : Int)
    (hlk : cache.lookup cache_id = some content)
    (h1 : -(content.length : Int) ≤ offset) (h2 : offset < 0) :
    (get_markdown_segment cache cache_id offset).1.isSuccess = true ∧
    ∃ k, k ≤ segLen ∧
      (get_markdown_segment cache cache_id offset).1.segmentOf =
        (content.drop (content.length - offset.natAbs)).take k := by
  have hcond : ¬ ((content.length : Int) ≤ offset) := by omega
  simp only [get_markdown_segment, hlk, if_neg hcond]
  refine ⟨rfl, ?_⟩
  simp only [SegmentResult.segmentOf, pySlice]
  set n := content.length with hn
  have hA : pyIdx n offset = n - offset.natAbs := by
    simp only [pyIdx, if_pos h2, Int.ofNat_eq_coe]
    omega
  rw [hA, take_drop_slice]
  refine ⟨pyIdx n (offset + (segLen : Int)) - (n - offset.natAbs), ?_, rfl⟩
  simp only [pyIdx, segLen, Int.ofNat_eq_coe]
  split <;> omega

/-- Witness for C9: on the cache holding `m ↦ "hello"`, offset `-2` yields a
success payload whose segment is a slice addressed from the end
(`"hello"[-2:99998] = "lo"`). -/
theorem get_markdown_segment_negative_offset_witness :
    (get_markdown_segment [("m", ['h', 'e', 'l', 'l', 'o'])] "m" (-2)).1.isSuccess
      = true ∧
    ∃ k, k ≤ segLen ∧
      (get_markdown_segment [("m", ['h', 'e', 'l', 'l', 'o'])] "m" (-2)).1.segmentOf
        = ((['h', 'e', 'l', 'l', 'o'] : List Char).drop
            ((['h', 'e', 'l', 'l', 'o'] : List Char).length - (-2 : Int).natAbs)).take k :=
  get_markdown_segment_negative_offset [("m", ['h', 'e', 'l', 'l', 'o'])] "m"
    ['h', 'e', 'l', 'l', 'o'] (-2) (by decide) (by decide) (by decide)

/-- The paging loop a caller performs against `get_markdown_segment`
(src/main.py lines 190-234): starting from a given offset, fetch a segment;
if the payload is a success with `has_more = true`, continue at the returned
`next_offset`; stop after a success with `has_more = false`.  Any error
payload (or a missing `next_offset`, or exhausted fuel) yields `none`;
otherwise the collected segments are returned in fetch order. -/
def segmentChain (cache : List (String × List Char)) (cache_id : String) :
    Int → Nat → Option (List (List Char))
  | _, 0 => none
  | offset, fuel + 1 =>
      match (get_markdown_segment cache cache_id offset).1 with
      | .success _ seg _ _ _ has_more next_offset =>
          if has_more then
            match next_offset with
            | some nxt => (segmentChain cache cache_id nxt fuel).map (seg :: ·)
            | none => none
          else some [seg]
      | _ => none

theorem lookup_dictInsert (c : List (String × List Char)) (k : String)
    (v : List Char) : (dictInsert c k v).lookup k = some v := by
  induction c with
  | nil => simp [dictInsert, List.lookup]
  | cons p t ih =>
      by_cases hp : p.1 = k
      · have hp' : (p.1 == k) = true := by simpa using hp
        simp [dictInsert, hp', List.lookup]
      · have hp' : (p.1 == k) = false := by simpa using hp
        have hk : (k == p.1) = false := by
          simp only [beq_eq_false_iff_ne]
          exact fun h => hp h.symm
        simp [dictInsert, hp', List.lookup, hk, ih]

theorem pySlice_nat (l : List Char) (a : Nat) (ha : a < l.length) :
    pySlice l (a : Int) ((a : Int) + (segLen : Int)) =
      (l.drop a).take segLen := by
  unfold pySlice
  have hA : pyIdx l.length (a : Int) = a := by
    simp only [pyIdx, Int.ofNat_eq_coe]
    split
    · omega
    · omega
  have hB : pyIdx l.length ((a : Int) + (segLen : Int)) = min (a + segLen) l.length := by
    simp only [pyIdx, Int.ofNat_eq_coe]
    split
    · omega
    · omega
  rw [hA, hB, take_min_length, take_drop_slice]
  have : a + segLen - a = segLen := by omega
  rw [this]

/-- One chain step reconstructs the tail of the content: a success fetch at
`offset < L` followed by the chain from `next_offset` yields exactly
`content.drop offset`. -/
theorem segmentChain_reconstruct (cache : List (String × List Char))
    (cache_id : String) (content : List Char)
    (hlk : cache.lookup cache_id = some content) :
    ∀ (fuel offset : Nat), offset < content.length →
      content.length - offset ≤ fuel * segLen →
      ∃ segs, segmentChain cache cache_id (offset : Int) fuel = some segs ∧
        segs.flatten = content.drop offset ∧
        ∀ s ∈ segs, s.length ≤ segLen := by
  intro fuel
  induction fuel with
  | zero =>
      intro offset h1 h2
      simp only [segLen, Nat.zero_mul] at h2
      omega
  | succ fuel ih =>
      intro offset h1 h2
      have hcond : ¬ ((content.length : Int) ≤ (offset : Int)) := by omega
      unfold segmentChain
      simp only [get_markdown_segment, hlk, if_neg hcond]
      rw [pySlice_nat content offset h1]
      by_cases hmore : (offset : Int) + (segLen : Int) < (content.length : Int)
      · have hmoreN : offset + segLen < content.length := by omega
        have hdec : decide ((offset : Int) + (segLen : Int) < (content.length : Int))
            = true := decide_eq_true hmore
        rw [hdec, if_pos hmore, if_pos rfl]
        have hcast : (offset : Int) + (segLen : Int) = ((offset + segLen : Nat) : Int) := by
          omega
        rw [hcast]
        obtain ⟨segs, hchain, hflat, hbound⟩ :=
          ih (offset + segLen) (by omega) (by
            have : (fuel + 1) * segLen = fuel * segLen + segLen := Nat.succ_mul _ _
            omega)
        refine ⟨(content.drop offset).take segLen :: segs, ?_, ?_, ?_⟩
        · show Option.map (fun x => (content.drop offset).take segLen :: x)
              (segmentChain cache cache_id ((offset + segLen : Nat) : Int) fuel) =
            some ((content.drop offset).take segLen :: segs)
          rw [hchain]
          rfl
        · simp only [List.flatten_cons, hflat]
          rw [← List.drop_drop, List.take_append_drop]
        · intro s hs
          rcases List.mem_cons.mp hs with hs' | hs'
          · simp only [hs', List.length_take]
            omega
          · exact hbound s hs'
      · have hdec : decide ((offset : Int) + (segLen : Int) < (content.length : Int))
            = false := decide_eq_false hmore
        rw [hdec, if_neg hmore]
        rw [if_neg (by simp : ¬ (false = true))]
        refine ⟨[(content.drop offset).take segLen], rfl, ?_, ?_⟩
        · simp only [List.flatten_cons, List.flatten_nil, List.append_nil]
          refine List.take_of_length_le ?_
          rw [List.length_drop]
          omega
        · intro s hs
          simp only [List.mem_singleton] at hs
          simp only [hs, List.length_take]
          omega

/-- C2 counterexample: the claim includes the empty string, but storing `""`
and fetching at offset 0 hits the `offset >= total_length` guard
(src/main.py line 214) and returns an out-of-range error payload instead of
a success segment, so the `next_offset` chain never starts (no fuel makes it
succeed; shown here at fuel 2). -/
theorem segment_roundtrip_empty_cex :
    (get_markdown_segment (storeMarkdown ⟨[], 0⟩ []).1.cache "markdown_0" 0).1 =
      SegmentResult.outOfRange 0 0 ∧
    segmentChain (storeMarkdown ⟨[], 0⟩ []).1.cache "markdown_0" 0 2 = none := by
  decide

/-- C2 (amended to non-empty content): for every non-empty text `C`, storing
`C` via the cache-store step of `read_as_markdown` and following the
`next_offset` chain from offset 0 yields slices that concatenate to exactly
`C`, in order, with no gaps or overlaps and each slice at most 100000
characters.  (For `C = ""` the very first fetch returns an out-of-range
error, see the counterexample.) -/
theorem segment_roundtrip (st : CacheState) (content : List Char)
    (h : content ≠ []) :
    ∃ segs,
      segmentChain (storeMarkdown st content).1.cache (storeMarkdown st content).2
          0 content.length = some segs ∧
      segs.flatten = content ∧
      ∀ s ∈ segs, s.length ≤ segLen := by
  have hlk : (storeMarkdown st content).1.cache.lookup (storeMarkdown st content).2
      = some content := lookup_dictInsert st.cache _ content
  have hlen : 0 < content.length := List.length_pos.mpr h
  have hfuel : content.length - 0 ≤ content.length * segLen := by
    calc content.length - 0 = content.length * 1 := by omega
    _ ≤ content.length * segLen := Nat.mul_le_mul_left _ (by decide)
  obtain ⟨segs, h1, h2, h3⟩ :=
    segmentChain_reconstruct (storeMarkdown st content).1.cache
      (storeMarkdown st content).2 content hlk content.length 0 hlen hfuel
  refine ⟨segs, h1, ?_, h3⟩
  rw [h2, List.drop_zero]

/-- Witness for C2 (amended): storing `"ab"` into a fresh cache and walking
the chain reconstructs `"ab"`. -/
theorem segment_roundtrip_witness :
    ∃ segs,
      segmentChain (storeMarkdown ⟨[], 0⟩ ['a', 'b']).1.cache
          (storeMarkdown ⟨[], 0⟩ ['a', 'b']).2 0 (['a', 'b'] : List Char).length =
        some segs ∧
      segs.flatten = ['a', 'b'] ∧
      ∀ s ∈ segs, s.length ≤ segLen :=
  segment_roundtrip ⟨[], 0⟩ ['a', 'b'] (by decide)

/-! ### Conversion orchestrator: `read_as_markdown` (src/main.py lines 93-185) -/

/-- A document handle passed to a converter: the caller's original file
(`str(source)`) or one of the chunk artifacts written by
`split_pdf_into_chunks`. -/
inductive ConvDoc where
  | original
  | chunk (chunkPath : String)
deriving DecidableEq

/-- One element of the list returned by `llama_parser.aparse(chunk_paths)`:
either an object with a `pages` attribute (each page contributing `page.md`,
src/main.py lines 144-145) or anything else, kept as its `str(...)` text
(line 148). -/
inductive JobResult where
  | withPages (pages : List (List Char))
  | other (text : List Char)
deriving DecidableEq

/-- Markdown extraction for one batch job result (src/main.py lines
143-149): pages are joined with a blank line, other shapes use their literal
textual form. -/
def jobMarkdown : JobResult → List Char
  | .withPages pages => List.intercalate ['\n', '\n'] pages
  | .other text => text

/-- Externally observable events of one `read_as_markdown` call, in order:
remote submissions, local (docling) conversions, scratch-directory lifecycle
and cache stores. -/
inductive Ev where
  | remoteSingleCall
  | remoteBatchCall (chunkPaths : List String)
  | localCall (d : ConvDoc)
  | mkTempDir
  | rmTempDir
  | cacheStore (id : String)
deriving DecidableEq

/-- Oracles for the effects `read_as_markdown` performs: whether the source
file exists (line 108), the `PdfReader` page count (line 128-129, `.error`
models a raised exception), whether `split_pdf_into_chunks` completes after
creating its scratch directory (lines 75-90), the result of
`llama_parser.aparse` on the whole document (line 161) and on the chunk
batch (line 140), and the docling conversion of a document (lines 122, 165).
`Except.error ()` models a raised exception in each case. -/
structure Oracles where
  fileExists : Bool
  pageCount : Except Unit Nat
  splitOk : Bool
  remoteSingle : Except Unit (List (List Char))
  remoteBatch : List String → Except Unit (List JobResult)
  localConv : ConvDoc → Except Unit (List Char)

deriving instance DecidableEq for Except

/-- Result of one `read_as_markdown` call: the returned payload
(`cache_id` and `total_chars` of the stored text, the constant JSON text
omitted) or a propagated exception, the final cache state, and the event
trace. -/
structure RAMOut where
  result : Except Unit (String × Nat)
  state : CacheState
  trace : List Ev
deriving DecidableEq

/-- Success epilogue of `read_as_markdown` (src/main.py lines 172-185):
store `result_text` in the response cache and return the cache reference. -/
def ramFinish (st : CacheState) (tr : List Ev) (result_text : List Char) :
    RAMOut :=
  let s := storeMarkdown st result_text
  ⟨.ok (s.2, result_text.length), s.1, tr ++ [.cacheStore s.2]⟩

/-- The `except Exception` fallback of the remote path (src/main.py lines
163-166): docling is invoked on the original source; if it raises too, the
exception propagates and nothing is stored. -/
def ramFallback (o : Oracles) (st : CacheState) (tr : List Ev) : RAMOut :=
  match o.localConv .original with
  | .ok t => ramFinish st (tr ++ [.localCall .original]) t
  | .error _ => ⟨.error (), st, tr ++ [.localCall .original]⟩

/-- Embedding of `read_as_markdown` (src/main.py lines 93-185).  Control
flow mirrors the source: missing file raises (line 108); `engine ==
"docling"` selects the local converter directly (lines 120-123); otherwise
the default path reads the page count (lines 128-129), chunks when
`total_pages > 40` (lines 132-158, the `finally` removing the scratch
directory before the outer `except` can run), or submits the whole document
(lines 160-162); any exception in the default path falls back to docling on
the original document (lines 163-166); the result text is cached (lines
172-176). -/
def ramRemotePath (o : Oracles) (st : CacheState) : RAMOut :=
  match o.pageCount with
  | .error _ => ramFallback o st []
  | .ok total_pages =>
    if 40 < total_pages then
      if o.splitOk = false then ramFallback o st [.mkTempDir]
      else
        let chunk_paths := (split_pdf_into_chunks total_pages 40).map
          (fun c => c.2.2)
        match o.remoteBatch chunk_paths with
        | .ok job_results =>
            ramFinish st [.mkTempDir, .remoteBatchCall chunk_paths, .rmTempDir]
              ((job_results.map jobMarkdown).flatten)
        | .error _ =>
            ramFallback o st [.mkTempDir, .remoteBatchCall chunk_paths, .rmTempDir]
    else
      match o.remoteSingle with
      | .ok pages => ramFinish st [.remoteSingleCall]
          (List.intercalate ['\n', '\n'] pages)
      | .error _ => ramFallback o st [.remoteSingleCall]

/-- Top level of `read_as_markdown` (src/main.py lines 93-123): missing file
raises (line 108); `engine == "docling"` selects the local converter
directly (lines 120-123); every other engine string takes the default
remote path `ramRemotePath`. -/
def read_as_markdown (o : Oracles) (engine : String) (st : CacheState) :
    RAMOut :=
  if o.fileExists = false then ⟨.error (), st, []⟩
  else if engine == "docling" then
    match o.localConv .original with
    | .ok t => ramFinish st [.localCall .original] t
    | .error _ => ⟨.error (), st, [.localCall .original]⟩
  else ramRemotePath o st

theorem ramFallback_props (o : Oracles) (st : CacheState) (tr : List Ev)
    (hno : ∀ d, Ev.localCall d ∉ tr) :
    (Ev.localCall .original ∈ (ramFallback o st tr).trace) ∧
    (∀ d, Ev.localCall d ∈ (ramFallback o st tr).trace → d = .original) ∧
    (∀ t, o.localConv .original = .ok t →
      (ramFallback o st tr).result =
          .ok ("markdown_" ++ toString st.counter, t.length) ∧
      (ramFallback o st tr).state.cache.lookup ("markdown_" ++ toString st.counter)
          = some t) ∧
    (o.localConv .original = .error () →
      (ramFallback o st tr).result = .error () ∧
      (ramFallback o st tr).state = st) := by
  cases hcase : o.localConv .original with
  | ok t =>
      simp only [ramFallback, hcase, ramFinish, storeMarkdown]
      refine ⟨?_, ?_, ?_, ?_⟩
      · simp
      · intro d hd
        have hd' : Ev.localCall d ∈ tr ∨ d = ConvDoc.original := by
          simpa using hd
        rcases hd' with hd' | hd'
        · exact absurd hd' (hno d)
        · exact hd'
      · intro t' ht'
        injection ht' with h
        subst h
        exact ⟨rfl, lookup_dictInsert st.cache _ _⟩
      · intro hbad
        exact Except.noConfusion hbad
  | error u =>
      cases u
      simp only [ramFallback, hcase]
      refine ⟨?_, ?_, ?_, ?_⟩
      · simp
      · intro d hd
        have hd' : Ev.localCall d ∈ tr ∨ d = ConvDoc.original := by
          simpa using hd
        rcases hd' with hd' | hd'
        · exact absurd hd' (hno d)
        · exact hd'
      · intro t' ht'
        exact Except.noConfusion ht'
      · intro _
        constructor <;> trivial

theorem read_as_markdown_eq_remote (o : Oracles) (engine : String)
    (st : CacheState) (hf : o.fileExists = true) (he : engine ≠ "docling") :
    read_as_markdown o engine st = ramRemotePath o st := by
  have hbeq : (engine == "docling") = false := by
    simp only [beq_eq_false_iff_ne, ne_eq]
    exact he
  rw [read_as_markdown, hf, hbeq]
  simp

theorem ramFallback_trace_ext (o : Oracles) (st : CacheState) (tr : List Ev) :
    ∃ ex, (ramFallback o st tr).trace = tr ++ ex := by
  cases h : o.localConv .original with
  | ok t =>
      exact ⟨[.localCall .original,
        .cacheStore ("markdown_" ++ toString st.counter)],
        by simp [ramFallback, h, ramFinish, storeMarkdown]⟩
  | error u =>
      exact ⟨[.localCall .original], by simp [ramFallback, h]⟩

/-- C3: on the remote (default) path, if the remote submission fails — the
direct single-document submission or the chunked batch submission — then the
local (docling) converter is applied to the original, unchunked document and
never to a chunk; its output becomes the stored result, and if the local
converter also fails the error propagates with the response cache left
unchanged (no partial result cached). -/
theorem remote_error_falls_back (o : Oracles) (engine : String)
    (st : CacheState) (hf : o.fileExists = true) (he : engine ≠ "docling")
    (P : Nat) (hp : o.pageCount = .ok P)
    (herr : (P ≤ 40 ∧ o.remoteSingle = .error ()) ∨
            (40 < P ∧ o.splitOk = true ∧
              o.remoteBatch ((split_pdf_into_chunks P 40).map (fun c => c.2.2)) =
                .error ())) :
    Ev.localCall ConvDoc.original ∈ (read_as_markdown o engine st).trace ∧
    (∀ d, Ev.localCall d ∈ (read_as_markdown o engine st).trace →
      d = ConvDoc.original) ∧
    (∀ t, o.localConv ConvDoc.original = .ok t →
      (read_as_markdown o engine st).result =
          .ok ("markdown_" ++ toString st.counter, t.length) ∧
      (read_as_markdown o engine st).state.cache.lookup
          ("markdown_" ++ toString st.counter) = some t) ∧
    (o.localConv ConvDoc.original = .error () →
      (read_as_markdown o engine st).result = .error () ∧
      (read_as_markdown o engine st).state = st) := by
  rw [read_as_markdown_eq_remote o engine st hf he]
  rcases herr with ⟨hle, hrs⟩ | ⟨hgt, hsp, hrb⟩
  · have hnot : ¬ (40 < P) := by omega
    simp only [ramRemotePath, hp, if_neg hnot, hrs]
    exact ramFallback_props o st _ (fun d => by simp)
  · simp only [ramRemotePath, hp, if_pos hgt]
    rw [if_neg (show ¬ (o.splitOk = false) by simp [hsp])]
    simp only [hrb]
    exact ramFallback_props o st _ (fun d => by simp)

/-- Witness for C3: with remote submission failing on a 10-page document and
docling succeeding with text `"md"`, the fallback runs docling on the
original document and caches its output. -/
theorem remote_error_falls_back_witness :
    Ev.localCall ConvDoc.original ∈
      (read_as_markdown
        ⟨true, .ok 10, true, .error (), fun _ => .error (),
          fun _ => .ok ['m', 'd']⟩ "llama-cloud" ⟨[], 0⟩).trace ∧
    (read_as_markdown
        ⟨true, .ok 10, true, .error (), fun _ => .error (),
          fun _ => .ok ['m', 'd']⟩ "llama-cloud" ⟨[], 0⟩).result =
      .ok ("markdown_0", 2) := by
  have h := remote_error_falls_back
    ⟨true, .ok 10, true, .error (), fun _ => .error (), fun _ => .ok ['m', 'd']⟩
    "llama-cloud" ⟨[], 0⟩ rfl (by decide) 10 rfl (Or.inl ⟨by decide, rfl⟩)
  exact ⟨h.1, (h.2.2.1 ['m', 'd'] rfl).1⟩

/-- C5: in the chunked branch (page count above 40, chunking completed), the
scratch directory created by `split_pdf_into_chunks` is removed before the
call returns, on the success arm and on every failure arm of chunk
conversion and reassembly: whatever the batch and fallback oracles do, the
trace begins `mkTempDir, remoteBatchCall, rmTempDir`, so the removal
precedes every later action of the call. -/
theorem chunk_scratch_cleanup (o : Oracles) (engine : String)
    (st : CacheState) (hf : o.fileExists = true) (he : engine ≠ "docling")
    (P : Nat) (hp : o.pageCount = .ok P) (hP : 40 < P)
    (hs : o.splitOk = true) :
    ∃ rest, (read_as_markdown o engine st).trace =
      Ev.mkTempDir ::
      Ev.remoteBatchCall ((split_pdf_into_chunks P 40).map (fun c => c.2.2)) ::
      Ev.rmTempDir :: rest := by
  rw [read_as_markdown_eq_remote o engine st hf he]
  simp only [ramRemotePath, hp, if_pos hP]
  rw [if_neg (show ¬ (o.splitOk = false) by simp [hs])]
  cases hrb : o.remoteBatch ((split_pdf_into_chunks P 40).map (fun c => c.2.2)) with
  | ok jrs =>
      simp only [hrb, ramFinish]
      exact ⟨[Ev.cacheStore ("markdown_" ++ toString st.counter)], rfl⟩
  | error u =>
      simp only [hrb]
      obtain ⟨ex, hex⟩ := ramFallback_trace_ext o st
        [Ev.mkTempDir,
         Ev.remoteBatchCall ((split_pdf_into_chunks P 40).map (fun c => c.2.2)),
         Ev.rmTempDir]
      exact ⟨ex, by rw [hex]; rfl⟩

/-- Witness for C5: a 100-page document with a failing batch submission and
failing docling still produces a trace whose first three events are
`mkTempDir`, the batch call, `rmTempDir`. -/
theorem chunk_scratch_cleanup_witness :
    ∃ rest, (read_as_markdown
        ⟨true, .ok 100, true, .error (), fun _ => .error (),
          fun _ => .error ()⟩ "llama-cloud" ⟨[], 0⟩).trace =
      Ev.mkTempDir ::
      Ev.remoteBatchCall ((split_pdf_into_chunks 100 40).map (fun c => c.2.2)) ::
      Ev.rmTempDir :: rest :=
  chunk_scratch_cleanup
    ⟨true, .ok 100, true, .error (), fun _ => .error (), fun _ => .error ()⟩
    "llama-cloud" ⟨[], 0⟩ rfl (by decide) 100 rfl (by decide) rfl

/-- C10: the local converter is selected directly exactly when the engine
string is `"docling"`; every other engine string — `"local"`, `"remote"`, or
any misspelling — behaves identically to the default `"llama-cloud"` remote
path (no invalid-argument error exists).  The `"docling"` branch only ever
runs docling on the original document (and stores the result). -/
theorem engine_selection (o : Oracles) (st : CacheState) (engine : String)
    (he : engine ≠ "docling") :
    read_as_markdown o engine st = read_as_markdown o "llama-cloud" st ∧
    (∀ ev ∈ (read_as_markdown o "docling" st).trace,
      ev = Ev.localCall ConvDoc.original ∨
      ev = Ev.cacheStore ("markdown_" ++ toString st.counter)) ∧
    (o.fileExists = true →
      Ev.localCall ConvDoc.original ∈ (read_as_markdown o "docling" st).trace) := by
  refine ⟨?_, ?_, ?_⟩
  · cases hfe : o.fileExists with
    | false => simp [read_as_markdown, hfe]
    | true =>
        rw [read_as_markdown_eq_remote o engine st hfe he,
          read_as_markdown_eq_remote o "llama-cloud" st hfe (by decide)]
  · cases hfe : o.fileExists with
    | false =>
        intro ev hev
        simp [read_as_markdown, hfe] at hev
    | true =>
        cases hlc : o.localConv .original with
        | ok t =>
            intro ev hev
            simp [read_as_markdown, hfe, hlc, ramFinish, storeMarkdown] at hev
            rcases hev with hev | hev
            · exact Or.inl (by rw [hev])
            · exact Or.inr (by rw [hev])
        | error u =>
            intro ev hev
            simp [read_as_markdown, hfe, hlc] at hev
            exact Or.inl (by rw [hev])
  · intro hfe
    cases hlc : o.localConv .original with
    | ok t => simp [read_as_markdown, hfe, hlc, ramFinish, storeMarkdown]
    | error u => simp [read_as_markdown, hfe, hlc]

/-- Witness for C10: `engine = "local"` behaves exactly like the default
remote path (here: remote fails, docling fallback caches `"md"`), and
`engine = "docling"` runs docling on the original document. -/
theorem engine_selection_witness :
    read_as_markdown
        ⟨true, .ok 10, true, .error (), fun _ => .error (),
          fun _ => .ok ['m', 'd']⟩ "local" ⟨[], 0⟩ =
      read_as_markdown
        ⟨true, .ok 10, true, .error (), fun _ => .error (),
          fun _ => .ok ['m', 'd']⟩ "llama-cloud" ⟨[], 0⟩ ∧
    Ev.localCall ConvDoc.original ∈
      (read_as_markdown
        ⟨true, .ok 10, true, .error (), fun _ => .error (),
          fun _ => .ok ['m', 'd']⟩ "docling" ⟨[], 0⟩).trace := by
  have h := engine_selection
    ⟨true, .ok 10, true, .error (), fun _ => .error (), fun _ => .ok ['m', 'd']⟩
    ⟨[], 0⟩ "local" (by decide)
  exact ⟨h.1, h.2.2 rfl⟩

/-! ### SEC filing retrieval: `download_sec_filing` (src/main.py lines 274-391) -/

/-- One row of the company filing index (`data["filings"]["recent"]`,
src/main.py lines 332-338).  Dates are encoded as `yyyymmdd` naturals, so
numeric order is chronological order and `date / 10000` is the calendar
year; `reportDate` is `none` when missing, modelling
`df['reportDate'].fillna(df['filingDate'])` (line 338).  Rows whose date
fails `pd.to_datetime(..., errors='coerce')` would become `NaT` and can
never equal a requested year, so only parseable dates are modelled. -/
structure FilingRecord where
  accessionNumber : String
  primaryDocument : String
  form : String
  reportDate : Option Nat
  filingDate : Nat
deriving DecidableEq

/-- `df['date'] = df['reportDate'].fillna(df['filingDate'])`
(src/main.py line 338). -/
def recDate (r : FilingRecord) : Nat :=
  r.reportDate.getD r.filingDate

/-- Network oracles for `download_sec_filing`: the submissions-index fetch
(src/main.py lines 322-324) and the archive document fetch (line 377);
`Except.error ()` models a `requests` exception or non-2xx status. -/
structure SecOracles where
  submissions : Except Unit (List FilingRecord)
  docFetch : Except Unit (List Char)
deriving DecidableEq

/-- Externally observable effects of one `download_sec_filing` call, in
order: the index fetch (line 322), `os.makedirs` (line 370), the document
fetch (line 377), and the file write (lines 382-383). -/
inductive SecEv where
  | netIndexFetch
  | fsMkdir (path : String)
  | netDocFetch
  | fsWrite (path : String)
deriving DecidableEq

/-- Return value of `download_sec_filing`: a literal `"Error: ..."` string,
or the success JSON carrying the local path of the primary document. -/
inductive SecResult where
  | errorMsg (msg : String)
  | ok (primaryDocumentPath : String)
deriving DecidableEq

/-- `output_dir_path.replace("\\", "/")` (src/main.py line 300): the pattern
is the single backslash character, so the replacement is a character map. -/
def normalizeSlashes (p : String) : List Char :=
  p.data.map (fun c => if c = '\\' then '/' else c)

/-- The output-directory validation of src/main.py line 301:
`normalized == "html" or normalized.startswith("html/")`. -/
def pathCheck (output_dir_path : String) : Bool :=
  normalizeSlashes output_dir_path == "html".data ||
    "html/".data.isPrefixOf (normalizeSlashes output_dir_path)

/-- `f"Error: No filing found for CIK={cik_int}, year={int(year)},
filing_type={filing_type}."` (src/main.py lines 347, 354). -/
def noFilingMsg (cik : Nat) (year : Int) (filing_type : String) : String :=
  "Error: No filing found for CIK=" ++ toString cik ++ ", year=" ++
    toString year ++ ", filing_type=" ++ filing_type ++ "."

/-- Comparison key of `sort_values('date', ...)`: ascending order on the
filing date. -/
def dateLe (a b : FilingRecord) : Prop := recDate a ≤ recDate b

instance : DecidableRel dateLe := fun a b => Nat.decLe (recDate a) (recDate b)

/-- `df_filtered.sort_values('date', ascending=False)` (src/main.py
line 357).  pandas `nargsort` implements a descending sort as: reverse the
rows, argsort ascending with the underlying numpy sort, reverse the
resulting order.  The code's default `kind='quicksort'` (numpy introsort)
is a correct but not stable sort, so its order among records with equal
dates is not specified by the program; this embedding fixes one concrete
correct sort (a stable insertion sort) for the ascending phase.  No theorem
below depends on the order of equal-date records: the theorems proved about
`download_sec_filing` either return before this sort runs or sort a
single-record frame. -/
def pandas_sort_desc (l : List FilingRecord) : List FilingRecord :=
  (List.insertionSort dateLe l.reverse).reverse

/-- Placeholder record for the unreachable `iloc[0]`-on-empty case (the code
only selects after checking the filtered frame is non-empty). -/
def emptyFilingRecord : FilingRecord := ⟨"", "", "", none, 0⟩

/-- Embedding of `download_sec_filing` (src/main.py lines 274-391).  The
year bound check (line 296) and output-path check (lines 300-302) run
before any network or filesystem effect; the submissions fetch (line 322)
builds the record list; form and year filters with their identical
"No filing found" errors (lines 344-354); the most recent filing is
`sort_values('date', ascending=False).iloc[0]` (line 357); then
`os.makedirs` (line 370) precedes the archive fetch (line 377) and the file
write (lines 382-383).  `os.path.join(output_dir_path, primary_doc)` is
modelled as slash concatenation (no caller passes a trailing slash or an
absolute document name).  The CIK parse (lines 305-310) and the literal
exception texts appended to network error messages are not needed by any
claim and are elided; rate-limit sleeps (lines 329, 374) have no observable
effect in this model. -/
def download_sec_filing (o : SecOracles) (cik : Nat) (year : Int)
    (filing_type : String) (output_dir_path : String) :
    SecResult × List SecEv :=
  if ¬ (2021 ≤ year ∧ year ≤ 2025) then
    (.errorMsg "Error: year must be between 2021 and 2025.", [])
  else if ¬ pathCheck output_dir_path then
    (.errorMsg "Error: output_dir_path must be \"html\" or \"html/...\" format.",
     [])
  else
    match o.submissions with
    | .error _ =>
        (.errorMsg "Error: Failed to fetch data from SEC server.",
         [.netIndexFetch])
    | .ok records =>
        let df_form := records.filter (fun r => r.form == filing_type)
        if df_form.isEmpty then
          (.errorMsg (noFilingMsg cik year filing_type), [.netIndexFetch])
        else
          let df_year := df_form.filter (fun r => recDate r / 10000 == year.toNat)
          if df_year.isEmpty then
            (.errorMsg (noFilingMsg cik year filing_type), [.netIndexFetch])
          else
            let filing := (pandas_sort_desc df_year).head?.getD emptyFilingRecord
            let local_path := output_dir_path ++ "/" ++ filing.primaryDocument
            match o.docFetch with
            | .error _ =>
                (.errorMsg "Error: Failed to download file.",
                 [.netIndexFetch, .fsMkdir output_dir_path, .netDocFetch])
            | .ok _ =>
                (.ok local_path,
                 [.netIndexFetch, .fsMkdir output_dir_path, .netDocFetch,
                  .fsWrite local_path])

/-- C7: for every year outside 2021-2025 the year bound check (src/main.py
line 296) returns the input-error message immediately: the result is the
literal error string and the effect trace is empty — no network call, no
filesystem action, and (trivially, the trace being empty) no retry. -/
theorem year_bounds_rejected (o : SecOracles) (cik : Nat) (year : Int)
    (filing_type output_dir_path : String)
    (h : year < 2021 ∨ 2025 < year) :
    download_sec_filing o cik year filing_type output_dir_path =
      (.errorMsg "Error: year must be between 2021 and 2025.", []) := by
  unfold download_sec_filing
  rw [if_pos (by omega)]

/-- Witness for C7 at the spec's example years 2019 and 2026. -/
theorem year_bounds_rejected_witness :
    download_sec_filing ⟨.ok [], .ok []⟩ 320193 2019 "10-K" "html/x" =
      (.errorMsg "Error: year must be between 2021 and 2025.", []) ∧
    download_sec_filing ⟨.ok [], .ok []⟩ 320193 2026 "10-K" "html/x" =
      (.errorMsg "Error: year must be between 2021 and 2025.", []) :=
  ⟨year_bounds_rejected ⟨.ok [], .ok []⟩ 320193 2019 "10-K" "html/x"
      (Or.inl (by decide)),
   year_bounds_rejected ⟨.ok [], .ok []⟩ 320193 2026 "10-K" "html/x"
      (Or.inr (by decide))⟩

/-- Path segments of a slash-normalized path. -/
def splitSlash : List Char → List (List Char) :=
  List.foldr
    (fun c acc =>
      match acc with
      | [] => if c = '/' then [[], []] else [[c]]
      | h :: t => if c = '/' then [] :: h :: t else (c :: h) :: t)
    [[]]

/-- Modelled from the spec: the spec requires the output directory's
*resolved* location to be rooted under the designated `html` subtree
(src/main.py only performs the syntactic prefix check `pathCheck`).  This
resolver processes `.`, `..` and empty segments of the (slash-normalized)
relative path; a path that climbs above the starting directory, or whose
resolved first segment is not `html`, is not under the subtree. -/
def resolveSegs (segs : List (List Char)) : Option (List (List Char)) :=
  segs.foldl
    (fun acc s =>
      match acc with
      | none => none
      | some a =>
          if s = [] ∨ s = ['.'] then some a
          else if s = ['.', '.'] then
            match a with
            | [] => none
            | _ => some a.dropLast
          else some (a ++ [s]))
    (some [])

/-- Modelled from the spec: whether the resolved location of
`output_dir_path` is rooted under the designated `html` subtree. -/
def resolvedUnderHtml (p : String) : Bool :=
  match resolveSegs (splitSlash (normalizeSlashes p)) with
  | none => false
  | some segs => segs.head? == some ("html".data)

/-- C8 counterexample: `"html/../../etc"` resolves outside the `html`
subtree, yet it passes the syntactic check of src/main.py line 301, so no
input-error is returned: with the network succeeding, the call creates the
escaped directory and writes the document there. -/
theorem output_dir_resolution_cex :
    resolvedUnderHtml "html/../../etc" = false ∧
    pathCheck "html/../../etc" = true ∧
    (download_sec_filing
        ⟨.ok [⟨"0000320193-23-000106", "aapl-20230930.htm", "10-K",
          some 20230930, 20231103⟩], .ok ['x']⟩
        320193 2023 "10-K" "html/../../etc").1 =
      .ok "html/../../etc/aapl-20230930.htm" ∧
    SecEv.fsMkdir "html/../../etc" ∈
      (download_sec_filing
        ⟨.ok [⟨"0000320193-23-000106", "aapl-20230930.htm", "10-K",
          some 20230930, 20231103⟩], .ok ['x']⟩
        320193 2023 "10-K" "html/../../etc").2 ∧
    SecEv.fsWrite "html/../../etc/aapl-20230930.htm" ∈
      (download_sec_filing
        ⟨.ok [⟨"0000320193-23-000106", "aapl-20230930.htm", "10-K",
          some 20230930, 20231103⟩], .ok ['x']⟩
        320193 2023 "10-K" "html/../../etc").2 := by
  refine ⟨by decide, by decide, by decide, by decide, by decide⟩

/-- C8 (amended): the rejection is syntactic, not resolution-based: whenever
the backslash-normalized `output_dir_path` is neither exactly `"html"` nor
prefixed by `"html/"`, `download_sec_filing` returns the input-error string
with an empty effect trace — before any filesystem write (and before any
network call).  Paths such as `"html/../../etc"` that escape the subtree
only after resolving `..` segments pass the check (see the
counterexample). -/
theorem output_dir_check_rejects (o : SecOracles) (cik : Nat) (year : Int)
    (filing_type output_dir_path : String)
    (hy : 2021 ≤ year ∧ year ≤ 2025)
    (hp : pathCheck output_dir_path = false) :
    download_sec_filing o cik year filing_type output_dir_path =
      (.errorMsg
        "Error: output_dir_path must be \"html\" or \"html/...\" format.",
       []) := by
  unfold download_sec_filing
  rw [if_neg (not_not_intro hy), if_pos (by simp [hp])]

/-- Witness for C8 (amended) at the spec's example `/etc/passwd`. -/
theorem output_dir_check_rejects_witness :
    download_sec_filing ⟨.ok [], .ok []⟩ 320193 2023 "10-K" "/etc/passwd" =
      (.errorMsg
        "Error: output_dir_path must be \"html\" or \"html/...\" format.",
       []) :=
  output_dir_check_rejects ⟨.ok [], .ok []⟩ 320193 2023 "10-K" "/etc/passwd"
    (by decide) (by decide)